import Mathlib

/-!
Verification of the order-placement engine of the A2sv e-commerce backend.

The development shallowly embeds the TypeScript sources:
  * `src/models/order.model.ts` (order schema, pre-save total hook),
  * `src/models/product.model.ts` (product schema),
  * `src/services/order.service.ts` (`placeOrder`, `getOrderById`),
  * `src/services/product.service.ts` (`updateProduct`),
  * `src/repositories/BaseRepository.ts` / `order.repository.ts`
    (transactional find/update/create helpers, `findOrderByIdAndUser`).

MongoDB sessions are modelled by explicit state passing: all writes made
while processing one request act on a session-local copy of the store and
become visible only when the transaction commits; an abort returns the
original store (this is exactly the all-or-nothing guarantee of
`session.withTransaction` that the code relies on).  JavaScript numbers
are modelled as exact rationals; string trimming performed by the schemas
is elided (strings are taken to be already trimmed).
-/

namespace A2sv

/-- JavaScript `Math.round`: rounds half toward positive infinity. -/
def jsRound (q : Rat) : Int := ⌊q + 1/2⌋

/-- Rounding to two decimals, as `Math.round(x * 100) / 100` in the
order model's pre-save hook and in `ProductService.updateProduct`. -/
def round2 (q : Rat) : Rat := (jsRound (q * 100) : Rat) / 100

/-- JavaScript `Number.isInteger` on our rational model of JS numbers. -/
def isIntQ (q : Rat) : Bool := q.den == 1

/-- Rendering of a rational in messages (stands in for JS number
interpolation; no claim depends on the digits produced). -/
def ratStr (q : Rat) : String :=
  if q.den == 1 then toString q.num else toString q.num ++ "/" ++ toString q.den

/-- A hexadecimal digit. -/
def isHexDigitChar (c : Char) : Bool :=
  c.isDigit || (('a' ≤ c) && (c ≤ 'f')) || (('A' ≤ c) && (c ≤ 'F'))

/-- mongoose `Types.ObjectId.isValid`: a 24-character hex string, or any
12-character string. -/
def isValidObjectId (s : String) : Bool :=
  s.length == 12 || (s.length == 24 && s.toList.all isHexDigitChar)

/-- `pat` is a prefix of the character list. -/
def startsWithChars : List Char → List Char → Bool
  | _, [] => true
  | [], _ :: _ => false
  | a :: as, b :: bs => a == b && startsWithChars as bs

/-- `pat` occurs somewhere in the character list. -/
def containsChars : List Char → List Char → Bool
  | [], pat => pat.isEmpty
  | a :: rest, pat => startsWithChars (a :: rest) pat || containsChars rest pat

/-- JavaScript `String.prototype.includes`. -/
def strIncludes (s pat : String) : Bool := containsChars s.toList pat.toList

/-! ## Message constants (src/config and helpers) -/

def invalidIdMsg : String := "Invalid ID format"
def notFoundMsg : String := "Resource not found"
def dataRetrievedMsg : String := "Data retrieved successfully"
def operationSuccessMsg : String := "Operation completed successfully"
def emptyOrderMsg : String := "Order must contain at least one product"
def createFailedMsg : String := "Failed to create order"

def invalidProductIdMsg (pid : String) : String := "Invalid product ID: " ++ pid

def productNotFoundMsg (pid : String) : String := "Product not found: " ++ pid

def insufficientStockMsg (name : String) (avail req : Rat) : String :=
  "Insufficient stock for product \"" ++ name ++ "\". Available: " ++ ratStr avail
    ++ ", Requested: " ++ ratStr req

def stockUpdateFailedMsg (name : String) : String :=
  "Failed to update stock for product: " ++ name

/-- `OrderService.placeOrder` catch block: derive the HTTP status from the
thrown error's message. -/
def classifyStatus (msg : String) : Nat :=
  if strIncludes msg "not found" then 404
  else if strIncludes msg "Invalid" || strIncludes msg "Insufficient" || strIncludes msg "must"
    then 400
  else 500

/-! ## Data model -/

/-- A product document (`product.model.ts`). -/
structure Product where
  id : String
  name : String
  description : String
  price : Rat
  stock : Rat
  userId : String
deriving DecidableEq

/-- An order line item (`IOrderProduct`): product reference plus the
snapshotted name/price and the quantity. -/
structure LineItem where
  productId : String
  name : String
  price : Rat
  quantity : Rat
deriving DecidableEq

/-- An order document (`order.model.ts`). -/
structure Order where
  id : String
  userId : String
  products : List LineItem
  totalPrice : Rat
  status : String
  description : String
deriving DecidableEq

/-- The durable state: the product and order collections. -/
structure Store where
  products : List Product
  orders : List Order
deriving DecidableEq

/-- One requested item of a `PlaceOrderRequest`. -/
structure ReqItem where
  productId : String
  quantity : Rat
deriving DecidableEq

/-- `PlaceOrderRequest` (`order.service.ts`). -/
structure PlaceOrderReq where
  products : List ReqItem
  description : Option String
deriving DecidableEq

/-- A service-layer response envelope. -/
structure Response where
  success : Bool
  statusCode : Nat
  message : String
deriving DecidableEq

/-- A service-layer response that may carry an order. -/
structure FindOrderResponse where
  success : Bool
  statusCode : Nat
  message : String
  data : Option Order
deriving DecidableEq

def mkErr (code : Nat) (msg : String) : Response :=
  { success := false, statusCode := code, message := msg }

def mkCreated : Response :=
  { success := true, statusCode := 201, message := operationSuccessMsg }

/-! ## Repository primitives -/

/-- `findById` on the product collection (documents are keyed by `_id`). -/
def findProduct (ps : List Product) (pid : String) : Option Product :=
  ps.find? (fun p => p.id == pid)

/-- Write a new stock value for product `pid`. -/
def updateProductStock (ps : List Product) (pid : String) (ns : Rat) : List Product :=
  ps.map (fun p => if p.id == pid then { p with stock := ns } else p)

/-- `BaseRepository.updateByIdWithTransaction` restricted to a `stock`
write: `findByIdAndUpdate` with `runValidators: true`, so the update
succeeds only if the document exists and the new stock satisfies the
schema's `min: 0`. -/
def updateStockChecked (ps : List Product) (pid : String) (ns : Rat) :
    Option (List Product) :=
  if (findProduct ps pid).isSome && decide (0 ≤ ns) then
    some (updateProductStock ps pid ns)
  else none

/-! ## Order document save (order.model.ts) -/

/-- Sum of `price * quantity` over the line items (the `reduce` in the
pre-save hook and in `updateProduct`). -/
def sumItems (lis : List LineItem) : Rat :=
  lis.foldl (fun s li => s + li.price * li.quantity) 0

/-- The order schema's `pre('save')` hook: recompute `totalPrice` from the
line items whenever the products list is non-empty. -/
def preSaveTotal (o : Order) : Order :=
  if o.products.length != 0 then
    { o with totalPrice := round2 (sumItems o.products) }
  else o

/-- Schema validation of one embedded line item (part_005
`OrderProductSchema`): name required, price `min 0`, quantity `min 1` and
`Number.isInteger`. -/
def validLineItem (li : LineItem) : Bool :=
  li.name != "" && decide (0 ≤ li.price) && decide (1 ≤ li.quantity) && isIntQ li.quantity

/-- The order status enum. -/
def validStatus (s : String) : Bool :=
  s == "pending" || s == "processing" || s == "shipped" || s == "delivered" || s == "cancelled"

/-- Schema validation of an order document (part_005 `OrderSchema`):
non-empty products, valid line items, `totalPrice` non-negative, status in
the enum, description at most 500 characters long. -/
def validateOrder (o : Order) : Bool :=
  o.products.length != 0 && o.products.all validLineItem
    && decide (0 ≤ o.totalPrice) && validStatus o.status
    && decide (o.description.length ≤ 500)

/-- mongoose `save()`/`create()`: run schema validation (which happens
before user `pre('save')` hooks), then apply the pre-save hook and store
the resulting document.  `none` models a validation failure, which
`createWithTransaction` reports as `success: false`. -/
def saveOrder (o : Order) : Option Order :=
  if validateOrder o then some (preSaveTotal o) else none

/-! ## OrderService.placeOrder -/

/-- The per-item loop body of `placeOrder` run over the whole request:
carries the session-local product collection, accumulates the assembled
line items, and throws (returns the error message) on the first failing
check.  Reads go through the session, so an item sees the stock writes of
earlier items of the same request. -/
def processItems : List Product → List ReqItem →
    Except String (List Product × List LineItem)
  | sess, [] => .ok (sess, [])
  | sess, item :: rest =>
    if !(isValidObjectId item.productId) then
      .error (invalidProductIdMsg item.productId)
    else if item.quantity == 0 || decide (item.quantity < 1) then
      .error "Product quantity must be at least 1"
    else
      match findProduct sess item.productId with
      | none => .error (productNotFoundMsg item.productId)
      | some product =>
        if decide (product.stock < item.quantity) then
          .error (insufficientStockMsg product.name product.stock item.quantity)
        else
          match updateStockChecked sess item.productId (product.stock - item.quantity) with
          | none => .error (stockUpdateFailedMsg product.name)
          | some sess2 =>
            match processItems sess2 rest with
            | .error e => .error e
            | .ok (sessF, lis) =>
              .ok (sessF,
                { productId := item.productId, name := product.name,
                  price := product.price, quantity := item.quantity } :: lis)

/-- Fresh `_id` for the created order document (stands in for MongoDB
ObjectId generation). -/
def freshOrderId (st : Store) : String := "order" ++ toString st.orders.length

/-- The order document handed to `OrderRepository.createOrder`:
status `pending`, `totalPrice: 0` (recomputed by the pre-save hook),
`description` defaulted to the empty string. -/
def draftOrder (st : Store) (uid : String) (req : PlaceOrderReq)
    (lis : List LineItem) : Order :=
  { id := freshOrderId st, userId := uid, products := lis, totalPrice := 0,
    status := "pending", description := req.description.getD "" }

/-- The body of `placeOrder` up to the commit: validations, the item
loop, and the order creation.  An `error` is a thrown error caught by the
service's catch block, paired with the status `classifyStatus` derives
from its message. -/
def placeOrderCore (st : Store) (uid : String) (req : PlaceOrderReq) :
    Except (Nat × String) (List Product × Order) :=
  if !(isValidObjectId uid) then .error (400, invalidIdMsg)
  else if req.products.length == 0 then .error (400, emptyOrderMsg)
  else
    match processItems st.products req.products with
    | .error msg => .error (classifyStatus msg, msg)
    | .ok (sess, lis) =>
      match saveOrder (draftOrder st uid req lis) with
      | none => .error (classifyStatus createFailedMsg, createFailedMsg)
      | some ord => .ok (sess, ord)

/-- `OrderService.placeOrder` (part_020): the pipeline runs inside
`session.withTransaction`, so on any thrown error the transaction aborts
and the store is unchanged; on success the session's writes and the new
order document become durable. -/
def placeOrder (st : Store) (uid : String) (req : PlaceOrderReq) :
    Response × Store :=
  match placeOrderCore st uid req with
  | .error em => (mkErr em.1 em.2, st)
  | .ok so => (mkCreated, { products := so.1, orders := st.orders ++ [so.2] })

/-- A MongoDB commit-conflict message (contains none of the substrings the
catch block classifies, so it maps to a 500). -/
def writeConflictMsg : String :=
  "WriteConflict error: this operation conflicted with another operation"

/-- `OrderService.placeOrder` (part_021): same pipeline, but with one
explicit `commitTransaction` call.  `commitFailsAt n = true` means the
n-th commit attempt would fail with a retryable write conflict; the code
performs exactly one commit attempt (attempt 0) and never consults any
later attempt. -/
def placeOrder21 (st : Store) (uid : String) (req : PlaceOrderReq)
    (commitFailsAt : Nat → Bool) : Response × Store :=
  match placeOrderCore st uid req with
  | .error em => (mkErr em.1 em.2, st)
  | .ok so =>
    if commitFailsAt 0 then
      (mkErr (classifyStatus writeConflictMsg) writeConflictMsg, st)
    else (mkCreated, { products := so.1, orders := st.orders ++ [so.2] })

/-! ## Order lookup -/

/-- `OrderRepository.findOrderByIdAndUser`: a single `findOne` on both the
order id and the owning user. -/
def findOrderByIdAndUser (st : Store) (orderId userId : String) : FindOrderResponse :=
  if !(isValidObjectId orderId && isValidObjectId userId) then
    { success := false, statusCode := 400, message := invalidIdMsg, data := none }
  else
    match st.orders.find? (fun o => o.id == orderId && o.userId == userId) with
    | none => { success := false, statusCode := 404, message := notFoundMsg, data := none }
    | some o => { success := true, statusCode := 200, message := dataRetrievedMsg, data := some o }

/-- `OrderService.getOrderById`: id validation, then the ownership-scoped
repository lookup. -/
def getOrderById (st : Store) (orderId userId : String) : FindOrderResponse :=
  if !(isValidObjectId orderId) || !(isValidObjectId userId) then
    { success := false, statusCode := 400, message := invalidIdMsg, data := none }
  else findOrderByIdAndUser st orderId userId

/-! ## ProductService.updateProduct (part_018) -/

/-- The admin update payload (`Partial<IProduct>`, restricted to the
fields the claims involve). -/
structure ProductUpdate where
  name : Option String
  price : Option Rat
  stock : Option Rat
  description : Option String
deriving DecidableEq

/-- Apply the partial update to a product document. -/
def applyUpdate (p : Product) (u : ProductUpdate) : Product :=
  { p with
    name := u.name.getD p.name
    price := u.price.getD p.price
    stock := u.stock.getD p.stock
    description := u.description.getD p.description }

/-- `runValidators` on `findByIdAndUpdate`: mongoose update validators
run on the updated paths, i.e. on every field the update carries
(product schema: name length 3..100, description length 10..2000, price
`min 0`, stock `min 0`). -/
def validUpdateData (u : ProductUpdate) : Bool :=
  (match u.name with
   | some n => decide (3 ≤ n.length) && decide (n.length ≤ 100)
   | none => true)
  && (match u.description with
      | some d => decide (10 ≤ d.length) && decide (d.length ≤ 2000)
      | none => true)
  && (match u.price with | some q => decide (0 ≤ q) | none => true)
  && (match u.stock with | some s => decide (0 ≤ s) | none => true)

/-- `nameChanged`: the update carries a truthy name different from the old
one. -/
def nameChangedB (old : Product) (u : ProductUpdate) : Bool :=
  match u.name with
  | some n => n != "" && n != old.name
  | none => false

/-- `priceChanged`: the update carries a price different from the old
one. -/
def priceChangedB (old : Product) (u : ProductUpdate) : Bool :=
  match u.price with
  | some q => q != old.price
  | none => false

/-- The inner rewrite of one line item of an order referencing the edited
product. -/
def rewriteItem (pid : String) (u : ProductUpdate) (nc pc : Bool)
    (li : LineItem) : LineItem :=
  if li.productId == pid then
    let li1 := if nc then (match u.name with | some n => { li with name := n } | none => li)
               else li
    if pc then (match u.price with | some q => { li1 with price := q } | none => li1)
    else li1
  else li

/-- The order document as the loop in part_018 leaves it right before
`order.save({ session })`: matching line items rewritten and `totalPrice`
recomputed via `round2`. -/
def rewriteOrderDoc (pid : String) (u : ProductUpdate) (nc pc : Bool) (o : Order) : Order :=
  { o with
    products := o.products.map (rewriteItem pid u nc pc),
    totalPrice := round2 (sumItems (o.products.map (rewriteItem pid u nc pc))) }

/-- The document stored for a referencing order when its
`save({ session })` succeeds: the pre-save hook runs on the rewritten
document. -/
def rewriteOrder (pid : String) (u : ProductUpdate) (nc pc : Bool) (o : Order) : Order :=
  preSaveTotal (rewriteOrderDoc pid u nc pc o)

/-- The `products.productId` query predicate. -/
def referencesProduct (o : Order) (pid : String) : Bool :=
  o.products.any (fun li => li.productId == pid)

/-- The order-rewrite loop of part_018: each referencing order is
rewritten and saved via `saveOrder` (schema validation plus pre-save
hook); the first save that fails validation throws, which the service's
catch turns into an abort — modelled as `none`. -/
def rewriteOrders (pid : String) (u : ProductUpdate) (nc pc : Bool) :
    List Order → Option (List Order)
  | [] => some []
  | o :: rest =>
    if referencesProduct o pid then
      match saveOrder (rewriteOrderDoc pid u nc pc o) with
      | none => none
      | some o2 => (rewriteOrders pid u nc pc rest).map (fun l => o2 :: l)
    else (rewriteOrders pid u nc pc rest).map (fun l => o :: l)

def internalErrorMsg : String := "Internal server error occurred"

/-- `ProductService.updateProduct`: update the product inside a
transaction and, if its name or price changed, rewrite every order that
references it (part_018 lines 24-103).  An invalid id or a missing product
yields the service's `Product not found`; an update-validator failure
yields the 500 the service returns after aborting; a validation failure
while saving a rewritten order throws, so the catch aborts the whole
transaction and returns the 500 `INTERNAL_ERROR`. -/
def updateProduct (st : Store) (pid : String) (u : ProductUpdate) :
    Response × Store :=
  if !(isValidObjectId pid) then (mkErr 404 "Product not found", st)
  else
    match findProduct st.products pid with
    | none => (mkErr 404 "Product not found", st)
    | some oldP =>
      let nc := nameChangedB oldP u
      let pc := priceChangedB oldP u
      let newP := applyUpdate oldP u
      if !(validUpdateData u) then (mkErr 500 "Failed to update product", st)
      else
        let products2 := st.products.map (fun p => if p.id == pid then newP else p)
        if nc || pc then
          match rewriteOrders pid u nc pc st.orders with
          | none => (mkErr 500 internalErrorMsg, st)
          | some orders2 =>
            ({ success := true, statusCode := 200,
               message := "Product and related orders updated successfully" },
             { products := products2, orders := orders2 })
        else
          ({ success := true, statusCode := 200, message := "Product updated successfully" },
           { products := products2, orders := st.orders })

/-! ## The HTTP boundary for order placement -/

/-- A raw request line item as it may arrive over HTTP: it can carry
client-supplied `price` and `name` fields. -/
structure RawOrderItem where
  productId : String
  quantity : Rat
  price : Option Rat
  name : Option String
deriving DecidableEq

/-- The Joi validator runs with `stripUnknown: true`, so only `productId`
and `quantity` survive; `OrderService.placeOrder` never reads any other
field of an item. -/
def stripItem (r : RawOrderItem) : ReqItem :=
  { productId := r.productId, quantity := r.quantity }

/-- The order-placement pipeline from the HTTP boundary. -/
def placeOrderHttp (st : Store) (uid : String) (items : List RawOrderItem)
    (desc : Option String) : Response × Store :=
  placeOrder st uid { products := items.map stripItem, description := desc }

/-! ## Inversion lemmas for the placeOrder pipeline -/

theorem placeOrder_error_eq (st : Store) (uid : String) (req : PlaceOrderReq)
    (c : Nat) (m : String) (h : placeOrderCore st uid req = .error (c, m)) :
    placeOrder st uid req = (mkErr c m, st) := by
  unfold placeOrder
  rw [h]

theorem placeOrder_ok_eq (st : Store) (uid : String) (req : PlaceOrderReq)
    (sess : List Product) (ord : Order)
    (h : placeOrderCore st uid req = .ok (sess, ord)) :
    placeOrder st uid req =
      (mkCreated, { products := sess, orders := st.orders ++ [ord] }) := by
  unfold placeOrder
  rw [h]

theorem placeOrderCore_ok_inv (st : Store) (uid : String) (req : PlaceOrderReq)
    (sess : List Product) (ord : Order)
    (h : placeOrderCore st uid req = .ok (sess, ord)) :
    ∃ lis, processItems st.products req.products = .ok (sess, lis) ∧
      saveOrder (draftOrder st uid req lis) = some ord := by
  unfold placeOrderCore at h
  split at h
  · simp at h
  · split at h
    · simp at h
    · cases hp : processItems st.products req.products with
      | error m => rw [hp] at h; dsimp only at h; simp at h
      | ok pr =>
        obtain ⟨sess1, lis⟩ := pr
        rw [hp] at h
        dsimp only at h
        cases hs : saveOrder (draftOrder st uid req lis) with
        | none => rw [hs] at h; dsimp only at h; simp at h
        | some o =>
          rw [hs] at h
          dsimp only at h
          simp only [Except.ok.injEq, Prod.mk.injEq] at h
          obtain ⟨h1, h2⟩ := h
          subst h1
          subst h2
          exact ⟨lis, rfl, hs⟩

/-! ## Facts about saving an order document -/

theorem saveOrder_products_eq (o o2 : Order) (h : saveOrder o = some o2) :
    o2.products = o.products := by
  unfold saveOrder at h
  split at h
  · injection h with h2
    subst h2
    unfold preSaveTotal
    split <;> rfl
  · simp at h

theorem saveOrder_total (o o2 : Order) (h : saveOrder o = some o2) :
    o2.totalPrice = round2 (sumItems o.products) := by
  unfold saveOrder at h
  split at h
  · rename_i hval
    injection h with h2
    subst h2
    have hne : (o.products.length != 0) = true := by
      unfold validateOrder at hval
      simp only [Bool.and_eq_true] at hval
      exact hval.1.1.1.1
    unfold preSaveTotal
    rw [if_pos hne]
  · simp at h

/-! ## C1 -/

/-- C1: whenever `placeOrder` returns an error (product not found,
insufficient stock, failed stock write, or any validation failure), the
transaction is aborted and the durable store is unchanged: no stock
decrement performed for an earlier line item survives and no order
document is created. -/
theorem placeOrder_error_leaves_store_unchanged (st : Store) (uid : String)
    (req : PlaceOrderReq) (h : (placeOrder st uid req).1.success = false) :
    (placeOrder st uid req).2.products = st.products ∧
    (placeOrder st uid req).2.orders = st.orders := by
  cases hc : placeOrderCore st uid req with
  | error em =>
    obtain ⟨c, m⟩ := em
    rw [placeOrder_error_eq st uid req c m hc]
    exact ⟨rfl, rfl⟩
  | ok so =>
    obtain ⟨sess, ord⟩ := so
    rw [placeOrder_ok_eq st uid req sess ord hc] at h
    simp [mkCreated] at h

def w1pidA : String := "aaaaaaaaaaaa"
def w1pidB : String := "bbbbbbbbbbbb"
def w1uid : String := "cccccccccccc"

def w1st : Store :=
  { products :=
      [{ id := w1pidA, name := "Alpha", description := "d", price := 4, stock := 5, userId := w1uid },
       { id := w1pidB, name := "Beta", description := "d", price := 9, stock := 1, userId := w1uid }],
    orders := [] }

def w1req : PlaceOrderReq :=
  { products := [{ productId := w1pidA, quantity := 2 }, { productId := w1pidB, quantity := 3 }],
    description := none }

/-- Witness for C1: a two-item order whose second item has insufficient
stock fails and leaves both collections untouched. -/
theorem placeOrder_error_leaves_store_unchanged_witness :
    (placeOrder w1st w1uid w1req).1.success = false ∧
    ((placeOrder w1st w1uid w1req).2.products = w1st.products ∧
     (placeOrder w1st w1uid w1req).2.orders = w1st.orders) :=
  ⟨by with_unfolding_all decide, placeOrder_error_leaves_store_unchanged w1st w1uid w1req (by with_unfolding_all decide)⟩

/-! ## C2 -/

/-- C2: every successful order save stores
`totalPrice = round2 (Σ price * quantity)` no matter which `totalPrice`
the caller supplied (the pre-save hook recomputes it whenever the products
list is non-empty), and consequently every order committed by `placeOrder`
satisfies the invariant. -/
theorem totalPrice_always_recomputed :
    (∀ o o2 : Order, saveOrder o = some o2 →
      o2.totalPrice = round2 (sumItems o2.products)) ∧
    (∀ (st : Store) (uid : String) (req : PlaceOrderReq) (o : Order),
      o ∈ (placeOrder st uid req).2.orders →
      o ∈ st.orders ∨ o.totalPrice = round2 (sumItems o.products)) := by
  constructor
  · intro o o2 h
    rw [saveOrder_products_eq o o2 h]
    exact saveOrder_total o o2 h
  · intro st uid req o hmem
    cases hc : placeOrderCore st uid req with
    | error em =>
      obtain ⟨c, m⟩ := em
      rw [placeOrder_error_eq st uid req c m hc] at hmem
      exact Or.inl hmem
    | ok so =>
      obtain ⟨sess, ord⟩ := so
      rw [placeOrder_ok_eq st uid req sess ord hc] at hmem
      simp only [List.mem_append, List.mem_singleton] at hmem
      cases hmem with
      | inl hin => exact Or.inl hin
      | inr heq =>
        subst heq
        obtain ⟨lis, _, hs⟩ := placeOrderCore_ok_inv st uid req sess o hc
        right
        rw [saveOrder_products_eq _ _ hs]
        exact saveOrder_total _ _ hs

def w2o : Order :=
  { id := "dddddddddddd", userId := w1uid,
    products := [{ productId := w1pidA, name := "Alpha", price := 333/100, quantity := 3 }],
    totalPrice := 42, status := "pending", description := "" }

set_option maxRecDepth 8000 in
/-- Witness for C2: a caller-supplied `totalPrice` of 42 is overwritten by
the recomputed rounded total. -/
theorem totalPrice_always_recomputed_witness :
    saveOrder w2o = some (preSaveTotal w2o) ∧
    (preSaveTotal w2o).totalPrice = round2 (sumItems (preSaveTotal w2o).products) :=
  ⟨by with_unfolding_all decide, totalPrice_always_recomputed.1 w2o (preSaveTotal w2o) (by with_unfolding_all decide)⟩

/-! ## C3 -/

theorem updateStockChecked_inv (ps : List Product) (pid : String) (ns : Rat)
    (l : List Product) (h : updateStockChecked ps pid ns = some l) :
    0 ≤ ns ∧ l = updateProductStock ps pid ns := by
  unfold updateStockChecked at h
  split at h
  · rename_i hc
    simp only [Bool.and_eq_true, decide_eq_true_eq] at hc
    injection h with h2
    exact ⟨hc.2, h2.symm⟩
  · simp at h

theorem updateProductStock_nonneg (ps : List Product) (pid : String) (ns : Rat)
    (hns : 0 ≤ ns) (h : ∀ p ∈ ps, 0 ≤ p.stock) :
    ∀ p ∈ updateProductStock ps pid ns, 0 ≤ p.stock := by
  intro p hp
  unfold updateProductStock at hp
  simp only [List.mem_map] at hp
  obtain ⟨q, hq, hqe⟩ := hp
  subst hqe
  split
  · exact hns
  · exact h q hq

theorem processItems_stock_nonneg (items : List ReqItem) :
    ∀ (sess sess2 : List Product) (lis : List LineItem),
      processItems sess items = .ok (sess2, lis) →
      (∀ p ∈ sess, 0 ≤ p.stock) → ∀ p ∈ sess2, 0 ≤ p.stock := by
  induction items with
  | nil =>
    intro sess sess2 lis h hnn
    simp only [processItems, Except.ok.injEq, Prod.mk.injEq] at h
    rw [← h.1]
    exact hnn
  | cons it rest ih =>
    intro sess sess2 lis h hnn
    simp only [processItems] at h
    split at h
    · simp at h
    · split at h
      · simp at h
      · cases hf : findProduct sess it.productId with
        | none => rw [hf] at h; simp at h
        | some product =>
          rw [hf] at h
          dsimp only at h
          split at h
          · simp at h
          · cases hu : updateStockChecked sess it.productId (product.stock - it.quantity) with
            | none => rw [hu] at h; simp at h
            | some sessB =>
              rw [hu] at h
              dsimp only at h
              cases hr : processItems sessB rest with
              | error e => rw [hr] at h; simp at h
              | ok pr =>
                obtain ⟨sessF, lis2⟩ := pr
                rw [hr] at h
                dsimp only at h
                simp only [Except.ok.injEq, Prod.mk.injEq] at h
                obtain ⟨h1, _⟩ := h
                subst h1
                obtain ⟨hns, hB⟩ := updateStockChecked_inv _ _ _ _ hu
                subst hB
                exact ih _ _ _ hr (updateProductStock_nonneg _ _ _ hns hnn)

/-- C3: product stock never becomes negative.  After any `placeOrder`
attempt (successful or failed) every stock is still non-negative, because
the stock write happens only under the `stock >= quantity` guard; and the
modelled `runValidators` update (`updateStockChecked`) only ever accepts a
non-negative stock value, reflecting the schema's `min: 0`. -/
theorem stock_never_negative (st : Store) (uid : String) (req : PlaceOrderReq)
    (h : ∀ p ∈ st.products, 0 ≤ p.stock) :
    (∀ p ∈ (placeOrder st uid req).2.products, 0 ≤ p.stock) ∧
    (∀ (ps l : List Product) (pid : String) (ns : Rat),
      updateStockChecked ps pid ns = some l → 0 ≤ ns) ∧
    (∀ (st2 : Store) (pid : String) (u : ProductUpdate),
      (∀ p ∈ st2.products, 0 ≤ p.stock) →
      ∀ p ∈ (updateProduct st2 pid u).2.products, 0 ≤ p.stock) := by
  refine ⟨?_, ?_, ?_⟩
  · cases hc : placeOrderCore st uid req with
    | error em =>
      obtain ⟨c, m⟩ := em
      rw [placeOrder_error_eq st uid req c m hc]
      exact h
    | ok so =>
      obtain ⟨sess, ord⟩ := so
      rw [placeOrder_ok_eq st uid req sess ord hc]
      obtain ⟨lis, hp, _⟩ := placeOrderCore_ok_inv st uid req sess ord hc
      exact processItems_stock_nonneg req.products st.products sess lis hp h
  · intro ps l pid ns hs
    exact (updateStockChecked_inv ps pid ns l hs).1
  · intro st2 pid u hnn p2 hp2
    unfold updateProduct at hp2
    split at hp2
    · exact hnn p2 hp2
    · cases hf2 : findProduct st2.products pid with
      | none => rw [hf2] at hp2; exact hnn p2 hp2
      | some oldP =>
        rw [hf2] at hp2
        dsimp only at hp2
        split at hp2
        · exact hnn p2 hp2
        · rename_i hvalcond
          simp only [Bool.not_eq_true, Bool.not_eq_false'] at hvalcond
          have hOldMem : oldP ∈ st2.products := List.mem_of_find?_eq_some hf2
          have hstockOk : 0 ≤ (applyUpdate oldP u).stock := by
            show 0 ≤ u.stock.getD oldP.stock
            cases hus : u.stock with
            | none => exact hnn oldP hOldMem
            | some s =>
              simp only [validUpdateData, hus, Bool.and_eq_true,
                decide_eq_true_eq] at hvalcond
              exact hvalcond.2
          split at hp2
          · cases hrw : rewriteOrders pid u (nameChangedB oldP u)
                (priceChangedB oldP u) st2.orders with
            | none => rw [hrw] at hp2; exact hnn p2 hp2
            | some os =>
              rw [hrw] at hp2
              dsimp only at hp2
              simp only [List.mem_map] at hp2
              obtain ⟨q, hq, hqe⟩ := hp2
              subst hqe
              split
              · exact hstockOk
              · exact hnn q hq
          · simp only [List.mem_map] at hp2
            obtain ⟨q, hq, hqe⟩ := hp2
            subst hqe
            split
            · exact hstockOk
            · exact hnn q hq

def w3pid : String := "eeeeeeeeeeee"
def w3uid : String := "ffffffffffff"

def w3st : Store :=
  { products :=
      [{ id := w3pid, name := "Gamma", description := "d", price := 3, stock := 5, userId := w3uid }],
    orders := [] }

def w3req : PlaceOrderReq :=
  { products := [{ productId := w3pid, quantity := 5 }], description := none }

/-- Witness for C3: an order that drains the stock to exactly zero keeps
every stock non-negative. -/
theorem stock_never_negative_witness :
    (∀ p ∈ w3st.products, 0 ≤ p.stock) ∧
    (∀ p ∈ (placeOrder w3st w3uid w3req).2.products, 0 ≤ p.stock) :=
  ⟨by with_unfolding_all decide,
   (stock_never_negative w3st w3uid w3req (by with_unfolding_all decide)).1⟩

/-! ## C5 -/

/-- C5: fetching an order that exists but belongs to a different user
produces exactly the same response (success flag, status code, message,
payload) as fetching an order id that matches nothing: the single
`findOne` on both the id and the owning user cannot distinguish the two
cases. -/
theorem cross_user_get_behaves_as_not_found (st : Store) (id1 id2 uid : String)
    (h1 : isValidObjectId id1 = true) (h2 : isValidObjectId id2 = true)
    (hu : isValidObjectId uid = true)
    (hOwn : ∀ o ∈ st.orders, o.id = id1 → o.userId ≠ uid)
    (hNo : ∀ o ∈ st.orders, o.id ≠ id2) :
    getOrderById st id1 uid = getOrderById st id2 uid ∧
    getOrderById st id1 uid =
      { success := false, statusCode := 404, message := notFoundMsg, data := none } := by
  have f1 : st.orders.find? (fun o => o.id == id1 && o.userId == uid) = none := by
    rw [List.find?_eq_none]
    intro o ho
    simp only [Bool.and_eq_true, beq_iff_eq, not_and]
    intro hid
    exact fun huid => hOwn o ho hid huid
  have f2 : st.orders.find? (fun o => o.id == id2 && o.userId == uid) = none := by
    rw [List.find?_eq_none]
    intro o ho
    simp only [Bool.and_eq_true, beq_iff_eq, not_and]
    intro hid
    exact absurd hid (hNo o ho)
  unfold getOrderById findOrderByIdAndUser
  rw [h1, h2, hu, f1, f2]
  exact ⟨rfl, rfl⟩

def w5owner : String := "gggggggggggg"
def w5viewer : String := "hhhhhhhhhhhh"
def w5ordId : String := "iiiiiiiiiiii"
def w5missingId : String := "jjjjjjjjjjjj"

def w5st : Store :=
  { products := [],
    orders :=
      [{ id := w5ordId, userId := w5owner,
         products := [{ productId := w3pid, name := "Gamma", price := 3, quantity := 1 }],
         totalPrice := 3, status := "pending", description := "" }] }

/-- Witness for C5: a viewer who does not own the stored order gets the
same `404 Resource not found` as for a missing order id. -/
theorem cross_user_get_behaves_as_not_found_witness :
    isValidObjectId w5ordId = true ∧
    getOrderById w5st w5ordId w5viewer = getOrderById w5st w5missingId w5viewer :=
  ⟨by with_unfolding_all decide,
   (cross_user_get_behaves_as_not_found w5st w5ordId w5missingId w5viewer
      (by with_unfolding_all decide) (by with_unfolding_all decide)
      (by with_unfolding_all decide) (by with_unfolding_all decide)
      (by with_unfolding_all decide)).1⟩

/-! ## C6 -/

def c6pid : String := "kkkkkkkkkkkk"
def c6uid : String := "llllllllllll"

def c6st : Store :=
  { products :=
      [{ id := c6pid, name := "Widget", description := "d", price := 5, stock := 10, userId := c6uid }],
    orders := [] }

def c6req : PlaceOrderReq :=
  { products := [{ productId := c6pid, quantity := 3/2 }], description := none }

set_option maxRecDepth 100000 in
/-- C6 (failing input): a request with the non-integer quantity `1.5` for
an in-stock product passes the Joi schema (`number().positive()` without
`.integer()`), the controller check (`quantity >= 1`) and the service
check (`quantity < 1`), and only dies when the order document is saved
(the order schema's `Number.isInteger` validator), so `placeOrder`
returns a 500 `Failed to create order` instead of the claimed 400
`InvalidInput`.  No state change is committed. -/
theorem noninteger_quantity_not_rejected_as_invalid_input :
    (placeOrder c6st c6uid c6req).1 = mkErr 500 createFailedMsg ∧
    (placeOrder c6st c6uid c6req).2 = c6st ∧
    (placeOrder c6st c6uid c6req).1.statusCode ≠ 400 := by
  refine ⟨?_, ?_, ?_⟩ <;> with_unfolding_all decide

/-! ## C7 -/

def c7pid : String := "mmmmmmmmmmmm"
def c7uid : String := "nnnnnnnnnnnn"

def c7st : Store :=
  { products :=
      [{ id := c7pid, name := "Delta", description := "d", price := 4, stock := 10, userId := c7uid }],
    orders := [] }

def c7req : PlaceOrderReq :=
  { products := [{ productId := c7pid, quantity := 2 }], description := none }

/-- The first commit attempt fails with a retryable write conflict; any
retry would succeed. -/
def c7commitFails : Nat → Bool := fun n => n == 0

set_option maxRecDepth 100000 in
/-- C7 (failing input): when the commit of an otherwise-successful
`placeOrder` fails with a retryable write conflict, the part_021 service
surfaces a 500 immediately — it performs no retry at all, even though a
single retry (attempt 1) would have succeeded, as the last conjunct
shows by running the same pipeline with a succeeding commit. -/
theorem commit_conflict_not_retried :
    (placeOrder21 c7st c7uid c7req c7commitFails).1 = mkErr 500 writeConflictMsg ∧
    (placeOrder21 c7st c7uid c7req c7commitFails).2 = c7st ∧
    c7commitFails 1 = false ∧
    (placeOrder21 c7st c7uid c7req (fun _ => false)).1.success = true := by
  refine ⟨?_, ?_, ?_, ?_⟩ <;> with_unfolding_all decide

/-! ## C4 -/

theorem findProduct_updateStock (sess : List Product) (pid qid : String) (ns : Rat) :
    findProduct (updateProductStock sess pid ns) qid =
      (findProduct sess qid).map
        (fun p => if p.id == pid then { p with stock := ns } else p) := by
  unfold findProduct updateProductStock
  rw [List.find?_map]
  have hpred :
      ((fun p : Product => p.id == qid) ∘
        (fun p : Product => if p.id == pid then { p with stock := ns } else p)) =
      (fun p : Product => p.id == qid) := by
    funext p
    simp only [Function.comp_apply]
    split <;> rfl
  rw [hpred]

theorem processItems_items_from_store (items : List ReqItem) :
    ∀ (sess sess2 : List Product) (lis : List LineItem),
      processItems sess items = .ok (sess2, lis) →
      ∀ li ∈ lis, ∃ p, findProduct sess li.productId = some p ∧
        li.name = p.name ∧ li.price = p.price := by
  induction items with
  | nil =>
    intro sess sess2 lis h li hli
    simp only [processItems, Except.ok.injEq, Prod.mk.injEq] at h
    rw [← h.2] at hli
    simp at hli
  | cons it rest ih =>
    intro sess sess2 lis h li hli
    simp only [processItems] at h
    split at h
    · simp at h
    · split at h
      · simp at h
      · cases hf : findProduct sess it.productId with
        | none => rw [hf] at h; simp at h
        | some product =>
          rw [hf] at h
          dsimp only at h
          split at h
          · simp at h
          · cases hu : updateStockChecked sess it.productId (product.stock - it.quantity) with
            | none => rw [hu] at h; simp at h
            | some sessB =>
              rw [hu] at h
              dsimp only at h
              cases hr : processItems sessB rest with
              | error e => rw [hr] at h; simp at h
              | ok pr =>
                obtain ⟨sessF, lis2⟩ := pr
                rw [hr] at h
                dsimp only at h
                simp only [Except.ok.injEq, Prod.mk.injEq] at h
                obtain ⟨hA, hB⟩ := h
                subst hA
                subst hB
                rcases List.mem_cons.mp hli with hhd | htl
                · subst hhd
                  exact ⟨product, hf, rfl, rfl⟩
                · obtain ⟨q, hq, hqn, hqp⟩ := ih sessB sessF lis2 hr li htl
                  obtain ⟨_, hBeq⟩ := updateStockChecked_inv _ _ _ _ hu
                  subst hBeq
                  rw [findProduct_updateStock] at hq
                  obtain ⟨p, hp, hfp⟩ := Option.map_eq_some'.mp hq
                  refine ⟨p, hp, ?_, ?_⟩
                  · rw [hqn, ← hfp]
                    split <;> rfl
                  · rw [hqp, ← hfp]
                    split <;> rfl

/-- C4: two `placeOrder` requests that differ only in client-supplied
`price`/`name` fields attached to line items produce identical results
(the validator strips those fields and the service never reads them), and
every stored line item's name and unit price are copied from the product
document found in the store. -/
theorem client_forged_price_ignored (st : Store) (uid : String)
    (desc : Option String) (items1 items2 : List RawOrderItem)
    (h : items1.map stripItem = items2.map stripItem) :
    placeOrderHttp st uid items1 desc = placeOrderHttp st uid items2 desc ∧
    (∀ sess ord,
      placeOrderCore st uid { products := items1.map stripItem, description := desc } =
        .ok (sess, ord) →
      ∀ li ∈ ord.products, ∃ p, findProduct st.products li.productId = some p ∧
        li.name = p.name ∧ li.price = p.price) := by
  constructor
  · unfold placeOrderHttp
    rw [h]
  · intro sess ord hc li hli
    obtain ⟨lis, hp, hs⟩ := placeOrderCore_ok_inv _ _ _ _ _ hc
    rw [saveOrder_products_eq _ _ hs] at hli
    exact processItems_items_from_store _ _ _ _ hp li hli

def w4pid : String := "oooooooooooo"
def w4uid : String := "qqqqqqqqqqqq"

def w4st : Store :=
  { products :=
      [{ id := w4pid, name := "Epsilon", description := "d", price := 6, stock := 4, userId := w4uid }],
    orders := [] }

def w4items1 : List RawOrderItem :=
  [{ productId := w4pid, quantity := 2, price := some (1/100), name := some "cheap" }]

def w4items2 : List RawOrderItem :=
  [{ productId := w4pid, quantity := 2, price := none, name := none }]

/-- Witness for C4: a request carrying a forged price of `0.01` yields
exactly the same response and store as the same request without it. -/
theorem client_forged_price_ignored_witness :
    w4items1.map stripItem = w4items2.map stripItem ∧
    placeOrderHttp w4st w4uid w4items1 none = placeOrderHttp w4st w4uid w4items2 none :=
  ⟨by with_unfolding_all decide,
   (client_forged_price_ignored w4st w4uid none w4items1 w4items2
      (by with_unfolding_all decide)).1⟩

/-! ## C8 -/

theorem preSaveTotal_id (o : Order) : (preSaveTotal o).id = o.id := by
  unfold preSaveTotal
  split <;> rfl

theorem preSaveTotal_userId (o : Order) : (preSaveTotal o).userId = o.userId := by
  unfold preSaveTotal
  split <;> rfl

theorem preSaveTotal_status (o : Order) : (preSaveTotal o).status = o.status := by
  unfold preSaveTotal
  split <;> rfl

theorem preSaveTotal_description (o : Order) :
    (preSaveTotal o).description = o.description := by
  unfold preSaveTotal
  split <;> rfl

theorem preSaveTotal_products (o : Order) : (preSaveTotal o).products = o.products := by
  unfold preSaveTotal
  split <;> rfl

theorem rewriteOrder_products (pid : String) (u : ProductUpdate) (nc pc : Bool)
    (o : Order) :
    (rewriteOrder pid u nc pc o).products = o.products.map (rewriteItem pid u nc pc) := by
  unfold rewriteOrder rewriteOrderDoc
  rw [preSaveTotal_products]

theorem rewriteOrder_total (pid : String) (u : ProductUpdate) (nc pc : Bool) (o : Order) :
    (rewriteOrder pid u nc pc o).totalPrice =
      round2 (sumItems (o.products.map (rewriteItem pid u nc pc))) := by
  unfold rewriteOrder rewriteOrderDoc preSaveTotal
  split <;> rfl

theorem rewriteItem_spec (pid : String) (u : ProductUpdate) (nc pc : Bool)
    (li : LineItem) :
    (li.productId ≠ pid → rewriteItem pid u nc pc li = li) ∧
    (li.productId = pid →
      (rewriteItem pid u nc pc li).productId = li.productId ∧
      (rewriteItem pid u nc pc li).quantity = li.quantity ∧
      (rewriteItem pid u nc pc li).name = (if nc then u.name.getD li.name else li.name) ∧
      (rewriteItem pid u nc pc li).price = (if pc then u.price.getD li.price else li.price)) := by
  constructor
  · intro hne
    unfold rewriteItem
    rw [if_neg (by simpa using hne)]
  · intro heq
    unfold rewriteItem
    rw [if_pos (show (li.productId == pid) = true by simpa using heq)]
    cases nc <;> cases pc <;> cases u.name <;> cases u.price <;> simp

theorem listForall2_map_self {α : Type} (R : α → α → Prop) (g : α → α) :
    ∀ l : List α, (∀ x ∈ l, R x (g x)) → List.Forall₂ R l (l.map g)
  | [], _ => List.Forall₂.nil
  | a :: t, h =>
    List.Forall₂.cons (h a (List.mem_cons_self a t))
      (listForall2_map_self R g t (fun x hx => h x (List.mem_cons_of_mem a hx)))

theorem findProduct_map (f : Product → Product) (ps : List Product) (qid : String)
    (hid : ∀ p, (f p).id = p.id) :
    findProduct (ps.map f) qid = (findProduct ps qid).map f := by
  unfold findProduct
  rw [List.find?_map]
  have hpred : ((fun p : Product => p.id == qid) ∘ f) = (fun p : Product => p.id == qid) := by
    funext p
    simp only [Function.comp_apply, hid]
  rw [hpred]

theorem validLineItem_parts (li : LineItem) (h : validLineItem li = true) :
    li.name ≠ "" ∧ 0 ≤ li.price ∧ 1 ≤ li.quantity ∧ isIntQ li.quantity = true := by
  simp only [validLineItem, Bool.and_eq_true, bne_iff_ne, ne_eq,
    decide_eq_true_eq] at h
  exact ⟨h.1.1.1, h.1.1.2, h.1.2, h.2⟩

theorem sumItems_nonneg_aux (lis : List LineItem) :
    ∀ acc : Rat, 0 ≤ acc → (∀ li ∈ lis, 0 ≤ li.price ∧ 0 ≤ li.quantity) →
      0 ≤ lis.foldl (fun s li => s + li.price * li.quantity) acc := by
  induction lis with
  | nil =>
    intro acc hacc _
    exact hacc
  | cons li rest ih =>
    intro acc hacc h
    have h1 := h li (List.mem_cons_self _ _)
    have h2 := mul_nonneg h1.1 h1.2
    exact ih (acc + li.price * li.quantity) (by linarith)
      (fun x hx => h x (List.mem_cons_of_mem _ hx))

theorem sumItems_nonneg (lis : List LineItem)
    (h : ∀ li ∈ lis, 0 ≤ li.price ∧ 0 ≤ li.quantity) : 0 ≤ sumItems lis :=
  sumItems_nonneg_aux lis 0 le_rfl h

theorem round2_nonneg (q : Rat) (h : 0 ≤ q) : 0 ≤ round2 q := by
  unfold round2 jsRound
  apply div_nonneg _ (by norm_num)
  have hfl : (0 : Int) ≤ ⌊q * 100 + 1/2⌋ := by
    apply Int.floor_nonneg.mpr
    positivity
  exact_mod_cast hfl

theorem rewriteItem_valid (pid : String) (u : ProductUpdate) (nc pc : Bool)
    (li : LineItem) (hli : validLineItem li = true)
    (hname : nc = true → ∃ n, u.name = some n ∧ n ≠ "")
    (hprice : pc = true → ∃ q, u.price = some q ∧ 0 ≤ q) :
    validLineItem (rewriteItem pid u nc pc li) = true := by
  obtain ⟨hn, hp, hq, hi⟩ := validLineItem_parts li hli
  by_cases hid : li.productId = pid
  · obtain ⟨h1, h2, h3, h4⟩ := (rewriteItem_spec pid u nc pc li).2 hid
    simp only [validLineItem, Bool.and_eq_true, bne_iff_ne, ne_eq, decide_eq_true_eq]
    refine ⟨⟨⟨?_, ?_⟩, ?_⟩, ?_⟩
    · rw [h3]
      cases hnc : nc with
      | false => simpa using hn
      | true =>
        obtain ⟨n, hun, hne⟩ := hname hnc
        rw [hun]
        simpa using hne
    · rw [h4]
      cases hpc : pc with
      | false => simpa using hp
      | true =>
        obtain ⟨q2, hup, hqe⟩ := hprice hpc
        rw [hup]
        simpa using hqe
    · rw [h2]
      exact hq
    · rw [h2]
      exact hi
  · rw [(rewriteItem_spec pid u nc pc li).1 hid]
    exact hli

theorem rewriteOrderDoc_valid (pid : String) (u : ProductUpdate) (nc pc : Bool)
    (o : Order) (ho : validateOrder o = true)
    (hname : nc = true → ∃ n, u.name = some n ∧ n ≠ "")
    (hprice : pc = true → ∃ q, u.price = some q ∧ 0 ≤ q) :
    validateOrder (rewriteOrderDoc pid u nc pc o) = true := by
  simp only [validateOrder, Bool.and_eq_true] at ho
  obtain ⟨⟨⟨⟨hlen, hall⟩, htot⟩, hstat⟩, hdesc⟩ := ho
  rw [List.all_eq_true] at hall
  have hallr : ∀ li ∈ o.products.map (rewriteItem pid u nc pc),
      validLineItem li = true := by
    intro li hli
    simp only [List.mem_map] at hli
    obtain ⟨x, hx, hxe⟩ := hli
    subst hxe
    exact rewriteItem_valid pid u nc pc x (hall x hx) hname hprice
  simp only [validateOrder, rewriteOrderDoc, Bool.and_eq_true]
  refine ⟨⟨⟨⟨?_, ?_⟩, ?_⟩, ?_⟩, ?_⟩
  · simpa [List.length_map] using hlen
  · rw [List.all_eq_true]
    exact hallr
  · simp only [decide_eq_true_eq]
    apply round2_nonneg
    apply sumItems_nonneg
    intro li hli
    obtain ⟨-, hp2, hq2, -⟩ := validLineItem_parts li (hallr li hli)
    exact ⟨hp2, by linarith⟩
  · exact hstat
  · exact hdesc

theorem rewriteOrders_eq_map (pid : String) (u : ProductUpdate) (nc pc : Bool) :
    ∀ orders : List Order,
      (∀ o ∈ orders, referencesProduct o pid = true →
        validateOrder (rewriteOrderDoc pid u nc pc o) = true) →
      rewriteOrders pid u nc pc orders =
        some (orders.map (fun o =>
          if referencesProduct o pid then rewriteOrder pid u nc pc o else o)) := by
  intro orders
  induction orders with
  | nil =>
    intro _
    rfl
  | cons o rest ih =>
    intro h
    have hrest := fun x hx => h x (List.mem_cons_of_mem _ hx)
    simp only [rewriteOrders]
    by_cases href : referencesProduct o pid = true
    · rw [if_pos href]
      have hsv : saveOrder (rewriteOrderDoc pid u nc pc o) =
          some (preSaveTotal (rewriteOrderDoc pid u nc pc o)) := by
        unfold saveOrder
        rw [if_pos (h o (List.mem_cons_self _ _) href)]
      rw [hsv]
      dsimp only
      rw [ih hrest]
      simp only [Option.map_some', List.map_cons]
      rw [if_pos href]
      rfl
    · rw [if_neg href]
      rw [ih hrest]
      simp only [Option.map_some', List.map_cons]
      rw [if_neg href]

/-- C8: when an admin edit changes a product's name or price, every order
referencing that product has the matching line items' snapshotted
name/price rewritten to the new values and its `totalPrice` recomputed as
`round2 (Σ price * quantity)`, in the same atomic state transition as the
product update; orders not referencing the product, and line items for
other products, are byte-identical to before.  The hypotheses require the
update to pass the product schema's update validators and the stored
orders to be schema-valid, so that every rewritten order's
`save({ session })` succeeds. -/
theorem product_edit_rewrites_referencing_orders (st : Store) (pid : String)
    (u : ProductUpdate) (oldP : Product)
    (hv : isValidObjectId pid = true)
    (hf : findProduct st.products pid = some oldP)
    (hval : validUpdateData u = true)
    (hords : ∀ o ∈ st.orders, validateOrder o = true)
    (hch : (nameChangedB oldP u || priceChangedB oldP u) = true) :
    (updateProduct st pid u).1.success = true ∧
    findProduct (updateProduct st pid u).2.products pid = some (applyUpdate oldP u) ∧
    List.Forall₂ (fun o o2 =>
        (referencesProduct o pid = false → o2 = o) ∧
        (referencesProduct o pid = true →
          o2.id = o.id ∧ o2.userId = o.userId ∧ o2.status = o.status ∧
          o2.description = o.description ∧
          o2.totalPrice = round2 (sumItems o2.products) ∧
          List.Forall₂ (fun li li2 =>
              (li.productId ≠ pid → li2 = li) ∧
              (li.productId = pid →
                li2.productId = li.productId ∧ li2.quantity = li.quantity ∧
                li2.name = (if nameChangedB oldP u then u.name.getD li.name else li.name) ∧
                li2.price = (if priceChangedB oldP u then u.price.getD li.price else li.price)))
            o.products o2.products))
      st.orders (updateProduct st pid u).2.orders := by
  have hOldId : oldP.id = pid := by
    have := List.find?_some hf
    simpa using this
  have hname : nameChangedB oldP u = true → ∃ n, u.name = some n ∧ n ≠ "" := by
    intro hnc
    unfold nameChangedB at hnc
    cases hun : u.name with
    | none =>
      rw [hun] at hnc
      cases hnc
    | some n =>
      rw [hun] at hnc
      simp only [Bool.and_eq_true, bne_iff_ne, ne_eq] at hnc
      exact ⟨n, rfl, hnc.1⟩
  have hprice : priceChangedB oldP u = true → ∃ q, u.price = some q ∧ 0 ≤ q := by
    intro hpc
    unfold priceChangedB at hpc
    cases hup : u.price with
    | none =>
      rw [hup] at hpc
      cases hpc
    | some q =>
      refine ⟨q, rfl, ?_⟩
      have hval2 := hval
      simp only [validUpdateData, hup, Bool.and_eq_true, decide_eq_true_eq] at hval2
      exact hval2.1.2
  have hrw : rewriteOrders pid u (nameChangedB oldP u) (priceChangedB oldP u) st.orders =
      some (st.orders.map (fun o =>
        if referencesProduct o pid then
          rewriteOrder pid u (nameChangedB oldP u) (priceChangedB oldP u) o
        else o)) :=
    rewriteOrders_eq_map pid u (nameChangedB oldP u) (priceChangedB oldP u) st.orders
      (fun o ho _ => rewriteOrderDoc_valid pid u (nameChangedB oldP u)
        (priceChangedB oldP u) o (hords o ho) hname hprice)
  have hred : updateProduct st pid u =
      ({ success := true, statusCode := 200,
         message := "Product and related orders updated successfully" },
       { products := st.products.map (fun p => if p.id == pid then applyUpdate oldP u else p),
         orders := st.orders.map (fun o =>
           if referencesProduct o pid then
             rewriteOrder pid u (nameChangedB oldP u) (priceChangedB oldP u) o
           else o) }) := by
    unfold updateProduct
    rw [hv, hf]
    simp only [Bool.not_true, Bool.false_eq_true, if_false]
    rw [hval]
    simp only [Bool.not_true, Bool.false_eq_true, if_false]
    rw [hch]
    simp only [if_true]
    rw [hrw]
  rw [hred]
  refine ⟨rfl, ?_, ?_⟩
  · have hid : ∀ p : Product,
        ((fun p => if p.id == pid then applyUpdate oldP u else p) p).id = p.id := by
      intro p
      dsimp only
      split
      · rename_i hcond
        have h2 : p.id = pid := by simpa using hcond
        show (applyUpdate oldP u).id = p.id
        show oldP.id = p.id
        rw [hOldId, h2]
      · rfl
    rw [findProduct_map _ _ _ hid, hf]
    simp only [Option.map_some']
    rw [if_pos (show (oldP.id == pid) = true by simpa using hOldId)]
  · apply listForall2_map_self
    intro o _
    constructor
    · intro href
      simp only [href, Bool.false_eq_true, if_false]
    · intro href
      simp only [href, if_true]
      refine ⟨?_, ?_, ?_, ?_, ?_, ?_⟩
      · rw [rewriteOrder]
        rw [preSaveTotal_id]
        rfl
      · rw [rewriteOrder]
        rw [preSaveTotal_userId]
        rfl
      · rw [rewriteOrder]
        rw [preSaveTotal_status]
        rfl
      · rw [rewriteOrder]
        rw [preSaveTotal_description]
        rfl
      · rw [rewriteOrder_total, rewriteOrder_products]
      · rw [rewriteOrder_products]
        apply listForall2_map_self
        intro li _
        exact rewriteItem_spec pid u (nameChangedB oldP u) (priceChangedB oldP u) li

def w8pid : String := "rrrrrrrrrrrr"
def w8uid : String := "ssssssssssss"
def w8otherPid : String := "uuuuuuuuuuuu"

def w8oldP : Product :=
  { id := w8pid, name := "Zeta", description := "d", price := 5, stock := 3, userId := w8uid }

def w8st : Store :=
  { products := [w8oldP],
    orders :=
      [{ id := "tttttttttttt", userId := w8uid,
         products :=
           [{ productId := w8pid, name := "Zeta", price := 5, quantity := 2 },
            { productId := w8otherPid, name := "Other", price := 1, quantity := 1 }],
         totalPrice := 11, status := "pending", description := "" },
       { id := "vvvvvvvvvvvv", userId := w8uid,
         products := [{ productId := w8otherPid, name := "Other", price := 1, quantity := 4 }],
         totalPrice := 4, status := "pending", description := "" }] }

def w8u : ProductUpdate :=
  { name := none, price := some 7, stock := none, description := none }

/-- Witness for C8: an admin price edit (5 to 7) on a product referenced
by one stored order succeeds; the referenced order's matching item price
becomes 7 and its total is recomputed. -/
theorem product_edit_rewrites_referencing_orders_witness :
    findProduct w8st.products w8pid = some w8oldP ∧
    (updateProduct w8st w8pid w8u).1.success = true :=
  ⟨by with_unfolding_all decide,
   (product_edit_rewrites_referencing_orders w8st w8pid w8u w8oldP
      (by with_unfolding_all decide) (by with_unfolding_all decide)
      (by with_unfolding_all decide) (by with_unfolding_all decide)
      (by with_unfolding_all decide)).1⟩

/-! ## C10 -/

/-- Total quantity requested by a list of items. -/
def sumQ : List ReqItem → Rat
  | [] => 0
  | it :: rest => it.quantity + sumQ rest

theorem sumQ_nonneg (items : List ReqItem)
    (h : ∀ it ∈ items, 1 ≤ it.quantity) : 0 ≤ sumQ items := by
  induction items with
  | nil => exact le_refl 0
  | cons it rest ih =>
    have h1 : 1 ≤ it.quantity := h it (List.mem_cons_self _ _)
    have h2 : 0 ≤ sumQ rest := ih (fun x hx => h x (List.mem_cons_of_mem _ hx))
    show 0 ≤ it.quantity + sumQ rest
    linarith

theorem processItems_single_product_ok (items : List ReqItem) :
    ∀ (sess : List Product) (q : Product),
      isValidObjectId q.id = true →
      findProduct sess q.id = some q →
      (∀ it ∈ items, it.productId = q.id ∧ 1 ≤ it.quantity) →
      sumQ items ≤ q.stock →
      ∃ sess2,
        processItems sess items =
          .ok (sess2,
               items.map (fun it =>
                 { productId := it.productId, name := q.name, price := q.price,
                   quantity := it.quantity })) ∧
        findProduct sess2 q.id = some { q with stock := q.stock - sumQ items } := by
  induction items with
  | nil =>
    intro sess q hv hfind hall hle
    refine ⟨sess, by simp [processItems], ?_⟩
    rw [hfind]
    have hz : q.stock - sumQ ([] : List ReqItem) = q.stock := by
      show q.stock - 0 = q.stock
      rw [sub_zero]
    rw [hz]
  | cons it rest ih =>
    intro sess q hv hfind hall hle
    obtain ⟨hpid, hq1⟩ := hall it (List.mem_cons_self _ _)
    have hrest : ∀ x ∈ rest, x.productId = q.id ∧ 1 ≤ x.quantity :=
      fun x hx => hall x (List.mem_cons_of_mem _ hx)
    have hrestnn : 0 ≤ sumQ rest := sumQ_nonneg rest (fun x hx => (hrest x hx).2)
    have hsum : sumQ (it :: rest) = it.quantity + sumQ rest := rfl
    have hheadle : it.quantity ≤ q.stock := by
      rw [hsum] at hle
      linarith
    have hns : 0 ≤ q.stock - it.quantity := by linarith
    have hq0 : (it.quantity == 0) = false := by
      simp only [beq_eq_false_iff_ne, ne_eq]
      intro hzero
      rw [hzero] at hq1
      exact absurd hq1 (by norm_num)
    have hqlt : decide (it.quantity < 1) = false := by
      simp only [decide_eq_false_iff_not, not_lt]
      exact hq1
    have hstlt : decide (q.stock < it.quantity) = false := by
      simp only [decide_eq_false_iff_not, not_lt]
      exact hheadle
    have hupd : updateStockChecked sess q.id (q.stock - it.quantity) =
        some (updateProductStock sess q.id (q.stock - it.quantity)) := by
      unfold updateStockChecked
      rw [if_pos]
      rw [hfind]
      simp only [Option.isSome_some, Bool.true_and, decide_eq_true_eq]
      exact hns
    have hfind2 : findProduct (updateProductStock sess q.id (q.stock - it.quantity))
        q.id = some { q with stock := q.stock - it.quantity } := by
      rw [findProduct_updateStock, hfind]
      simp only [Option.map_some']
      rw [if_pos (by simp)]
    obtain ⟨sess2, hrun, hfin⟩ :=
      ih (updateProductStock sess q.id (q.stock - it.quantity))
        { q with stock := q.stock - it.quantity } hv hfind2 hrest
        (by
          show sumQ rest ≤ q.stock - it.quantity
          rw [hsum] at hle
          linarith)
    refine ⟨sess2, ?_, ?_⟩
    · simp only [processItems]
      rw [hpid, hv]
      simp only [Bool.not_true, Bool.false_eq_true, if_false]
      rw [hq0, hqlt]
      simp only [Bool.or_self, Bool.false_eq_true, if_false]
      rw [hfind]
      dsimp only
      rw [hstlt]
      simp only [Bool.false_eq_true, if_false]
      rw [hupd]
      dsimp only
      rw [hrun]
      simp [hpid]
    · rw [hsum, ← sub_sub]
      exact hfin

theorem processItems_single_product_insufficient (items : List ReqItem) :
    ∀ (sess : List Product) (q : Product),
      isValidObjectId q.id = true →
      findProduct sess q.id = some q →
      0 ≤ q.stock →
      (∀ it ∈ items, it.productId = q.id ∧ 1 ≤ it.quantity) →
      q.stock < sumQ items →
      ∃ k, ∃ hk : k < items.length,
        sumQ (items.take k) ≤ q.stock ∧ q.stock < sumQ (items.take (k + 1)) ∧
        processItems sess items =
          .error (insufficientStockMsg q.name (q.stock - sumQ (items.take k))
                    (items.get ⟨k, hk⟩).quantity) := by
  induction items with
  | nil =>
    intro sess q hv hfind hnn hall hex
    exact absurd hex (by simpa [sumQ] using hnn)
  | cons it rest ih =>
    intro sess q hv hfind hnn hall hex
    obtain ⟨hpid, hq1⟩ := hall it (List.mem_cons_self _ _)
    have hrest : ∀ x ∈ rest, x.productId = q.id ∧ 1 ≤ x.quantity :=
      fun x hx => hall x (List.mem_cons_of_mem _ hx)
    have hsum : sumQ (it :: rest) = it.quantity + sumQ rest := rfl
    have hq0 : (it.quantity == 0) = false := by
      simp only [beq_eq_false_iff_ne, ne_eq]
      intro hzero
      rw [hzero] at hq1
      exact absurd hq1 (by norm_num)
    have hqlt : decide (it.quantity < 1) = false := by
      simp only [decide_eq_false_iff_not, not_lt]
      exact hq1
    by_cases hhead : q.stock < it.quantity
    · refine ⟨0, by simp, ?_, ?_, ?_⟩
      · show sumQ [] ≤ q.stock
        exact hnn
      · show q.stock < sumQ [it]
        show q.stock < it.quantity + sumQ []
        show q.stock < it.quantity + 0
        rw [add_zero]
        exact hhead
      · simp only [processItems]
        rw [hpid, hv]
        simp only [Bool.not_true, Bool.false_eq_true, if_false]
        rw [hq0, hqlt]
        simp only [Bool.or_self, Bool.false_eq_true, if_false]
        rw [hfind]
        dsimp only
        rw [if_pos (by simpa using hhead)]
        have hz : q.stock - sumQ ((it :: rest).take 0) = q.stock := by
          show q.stock - 0 = q.stock
          rw [sub_zero]
        rw [hz]
        rfl
    · have hheadle : it.quantity ≤ q.stock := not_lt.mp hhead
      have hns : 0 ≤ q.stock - it.quantity := by linarith
      have hstlt : decide (q.stock < it.quantity) = false := by
        simp only [decide_eq_false_iff_not, not_lt]
        exact hheadle
      have hupd : updateStockChecked sess q.id (q.stock - it.quantity) =
          some (updateProductStock sess q.id (q.stock - it.quantity)) := by
        unfold updateStockChecked
        rw [if_pos]
        rw [hfind]
        simp only [Option.isSome_some, Bool.true_and, decide_eq_true_eq]
        exact hns
      have hfind2 : findProduct (updateProductStock sess q.id (q.stock - it.quantity))
          q.id = some { q with stock := q.stock - it.quantity } := by
        rw [findProduct_updateStock, hfind]
        simp only [Option.map_some']
        rw [if_pos (by simp)]
      obtain ⟨k, hk, hc1, hc2, herr⟩ :=
        ih (updateProductStock sess q.id (q.stock - it.quantity))
          { q with stock := q.stock - it.quantity } hv hfind2 hns hrest
          (by
            show q.stock - it.quantity < sumQ rest
            rw [hsum] at hex
            linarith)
      refine ⟨k + 1, by simpa using Nat.succ_lt_succ hk, ?_, ?_, ?_⟩
      · show sumQ (it :: rest.take k) ≤ q.stock
        show it.quantity + sumQ (rest.take k) ≤ q.stock
        have : sumQ (rest.take k) ≤ q.stock - it.quantity := hc1
        linarith
      · show q.stock < sumQ (it :: rest.take (k + 1))
        show q.stock < it.quantity + sumQ (rest.take (k + 1))
        have : q.stock - it.quantity < sumQ (rest.take (k + 1)) := hc2
        linarith
      · simp only [processItems]
        rw [hpid, hv]
        simp only [Bool.not_true, Bool.false_eq_true, if_false]
        rw [hq0, hqlt]
        simp only [Bool.or_self, Bool.false_eq_true, if_false]
        rw [hfind]
        dsimp only
        rw [hstlt]
        simp only [Bool.false_eq_true, if_false]
        rw [hupd]
        dsimp only
        rw [herr]
        have harith : q.stock - it.quantity - sumQ (rest.take k) =
            q.stock - sumQ ((it :: rest).take (k + 1)) := by
          show q.stock - it.quantity - sumQ (rest.take k) =
            q.stock - (it.quantity + sumQ (rest.take k))
          rw [sub_sub]
        rw [show (({ q with stock := q.stock - it.quantity } : Product).stock -
              sumQ (rest.take k)) = q.stock - it.quantity - sumQ (rest.take k) from rfl]
        rw [harith]
        rfl

/-- C10: when one request lists the same product several times, each
occurrence is checked and applied against the stock already decremented by
the earlier occurrences (session reads observe the session's own writes):
on success the product's stock decreases by the sum of all requested
quantities, and the request fails with the insufficient-stock error at the
first item whose cumulative requested quantity exceeds the initial stock,
leaving the store unchanged. -/
theorem duplicate_items_cumulative_stock (st : Store) (uid : String) (p : Product)
    (items : List ReqItem) (desc : Option String)
    (huid : isValidObjectId uid = true)
    (hpid : isValidObjectId p.id = true)
    (hfind : findProduct st.products p.id = some p)
    (hstock : 0 ≤ p.stock)
    (hitems : ∀ it ∈ items, it.productId = p.id ∧ 1 ≤ it.quantity ∧ isIntQ it.quantity = true)
    (hne : items ≠ [])
    (hname : p.name ≠ "")
    (hprice : 0 ≤ p.price)
    (hdesc : (desc.getD "").length ≤ 500) :
    (sumQ items ≤ p.stock →
      (placeOrder st uid { products := items, description := desc }).1.success = true ∧
      findProduct (placeOrder st uid
          { products := items, description := desc }).2.products p.id =
        some { p with stock := p.stock - sumQ items }) ∧
    (p.stock < sumQ items →
      (placeOrder st uid { products := items, description := desc }).1.success = false ∧
      (placeOrder st uid { products := items, description := desc }).2 = st ∧
      ∃ k, ∃ hk : k < items.length,
        sumQ (items.take k) ≤ p.stock ∧ p.stock < sumQ (items.take (k + 1)) ∧
        (placeOrder st uid { products := items, description := desc }).1.message =
          insufficientStockMsg p.name (p.stock - sumQ (items.take k))
            (items.get ⟨k, hk⟩).quantity) := by
  have hitems2 : ∀ it ∈ items, it.productId = p.id ∧ 1 ≤ it.quantity :=
    fun it hit => ⟨(hitems it hit).1, (hitems it hit).2.1⟩
  have hlen : (items.length == 0) = false := by
    simp only [beq_eq_false_iff_ne, ne_eq, List.length_eq_zero]
    exact hne
  constructor
  · intro hle
    obtain ⟨sess2, hrun, hfin⟩ :=
      processItems_single_product_ok items st.products p hpid hfind hitems2 hle
    have hdraftval : validateOrder (draftOrder st uid
        { products := items, description := desc }
        (items.map (fun it =>
          { productId := it.productId, name := p.name, price := p.price,
            quantity := it.quantity }))) = true := by
      unfold validateOrder draftOrder
      simp only [Bool.and_eq_true]
      refine ⟨⟨⟨⟨?_, ?_⟩, ?_⟩, ?_⟩, ?_⟩
      · simp only [List.length_map, bne_iff_ne, ne_eq, List.length_eq_zero]
        exact hne
      · rw [List.all_eq_true]
        intro li hli
        simp only [List.mem_map] at hli
        obtain ⟨it, hit, hfe⟩ := hli
        subst hfe
        simp only [validLineItem, Bool.and_eq_true, bne_iff_ne, ne_eq,
          decide_eq_true_eq]
        exact ⟨⟨⟨hname, hprice⟩, (hitems it hit).2.1⟩, (hitems it hit).2.2⟩
      · norm_num
      · decide
      · simpa using hdesc
    have hsave : saveOrder (draftOrder st uid
        { products := items, description := desc }
        (items.map (fun it =>
          { productId := it.productId, name := p.name, price := p.price,
            quantity := it.quantity }))) =
        some (preSaveTotal (draftOrder st uid
          { products := items, description := desc }
          (items.map (fun it =>
            { productId := it.productId, name := p.name, price := p.price,
              quantity := it.quantity })))) := by
      unfold saveOrder
      rw [if_pos hdraftval]
    have hcore : placeOrderCore st uid { products := items, description := desc } =
        .ok (sess2, preSaveTotal (draftOrder st uid
          { products := items, description := desc }
          (items.map (fun it =>
            { productId := it.productId, name := p.name, price := p.price,
              quantity := it.quantity })))) := by
      unfold placeOrderCore
      rw [huid]
      simp only [Bool.not_true, Bool.false_eq_true, if_false]
      rw [hlen]
      simp only [Bool.false_eq_true, if_false]
      rw [hrun]
      dsimp only
      rw [hsave]
    rw [placeOrder_ok_eq _ _ _ _ _ hcore]
    exact ⟨rfl, hfin⟩
  · intro hgt
    obtain ⟨k, hk, h1, h2, herr⟩ :=
      processItems_single_product_insufficient items st.products p hpid hfind hstock
        hitems2 hgt
    have hcore : placeOrderCore st uid { products := items, description := desc } =
        .error (classifyStatus (insufficientStockMsg p.name
            (p.stock - sumQ (items.take k)) (items.get ⟨k, hk⟩).quantity),
          insufficientStockMsg p.name (p.stock - sumQ (items.take k))
            (items.get ⟨k, hk⟩).quantity) := by
      unfold placeOrderCore
      rw [huid]
      simp only [Bool.not_true, Bool.false_eq_true, if_false]
      rw [hlen]
      simp only [Bool.false_eq_true, if_false]
      rw [herr]
    rw [placeOrder_error_eq _ _ _ _ _ hcore]
    exact ⟨rfl, rfl, k, hk, h1, h2, rfl⟩

def w10pid : String := "wwwwwwwwwwww"
def w10uid : String := "xxxxxxxxxxxx"

def w10p : Product :=
  { id := w10pid, name := "Eta", description := "d", price := 2, stock := 10, userId := w10uid }

def w10st : Store := { products := [w10p], orders := [] }

def w10items : List ReqItem :=
  [{ productId := w10pid, quantity := 6 }, { productId := w10pid, quantity := 4 }]

/-- Witness for C10: a request listing the same product twice (6 + 4
against a stock of 10) succeeds and drains the stock to zero. -/
theorem duplicate_items_cumulative_stock_witness :
    sumQ w10items ≤ w10p.stock ∧
    ((placeOrder w10st w10uid { products := w10items, description := none }).1.success = true ∧
     findProduct (placeOrder w10st w10uid
         { products := w10items, description := none }).2.products w10p.id =
       some { w10p with stock := w10p.stock - sumQ w10items }) :=
  ⟨by with_unfolding_all decide,
   (duplicate_items_cumulative_stock w10st w10uid w10p w10items none
      (by with_unfolding_all decide) (by with_unfolding_all decide)
      (by with_unfolding_all decide) (by with_unfolding_all decide)
      (by with_unfolding_all decide) (by with_unfolding_all decide)
      (by with_unfolding_all decide) (by with_unfolding_all decide)
      (by with_unfolding_all decide)).1 (by with_unfolding_all decide)⟩

end A2sv
